import Mathlib

/-!
Verification of the batch watermarking utility `add_watermark.py`.

The program is a single-file command-line tool: it validates a logo path,
recursively discovers image files under a root directory, and for each file
builds a watermark bitmap, composites it onto the image, overwrites the
original, and writes a downscaled thumbnail beside it.

The development below is a shallow embedding of that program:
* file names are lists of characters; `pyStem` and `pySuffix` follow the
  exact semantics of Python `pathlib` (`rfind` of the last dot, which must
  be neither at index 0 nor last);
* the discovery loop (`main`, lines 282-294 of the source) is `findImageFiles`;
* the floating-point aspect-ratio computation of `process_image`
  (lines 220-221) is modelled by `r64`, a round-to-nearest-even binary64
  rounding of positive rationals in the normal range;
* images are structures of width, height, mode and a pixel function; PIL
  `paste` with an RGBA mask uses Pillow's MULDIV255 blending;
* the control flow of `process_image` and `main` (which step raised, what
  was printed and saved, the process exit code) is a trace model driven by
  a fault oracle, distinguishing ordinary exceptions (caught by the
  per-file handler) from `SystemExit` (not an `Exception`, hence uncaught).
-/

/-! ### File names and pathlib stem/suffix -/

/-- A file name (the final path component), as Python sees it: a character list. -/
abbrev FName := List Char

/-- Index of the last '.' in a name, as Python `str.rfind` computes it. -/
def pyRfindDot (n : FName) : Option Nat :=
  match n.reverse.findIdx? (fun c => c = '.') with
  | some j => some (n.length - 1 - j)
  | none => none

/-- `pathlib.PurePath.suffix`: the part of the name from the last dot on,
provided that dot is neither the first nor the last character; else empty. -/
def pySuffix (n : FName) : FName :=
  match pyRfindDot n with
  | some i => if 0 < i ∧ i < n.length - 1 then n.drop i else []
  | none => []

/-- `pathlib.PurePath.stem`: the name with `pySuffix` removed. -/
def pyStem (n : FName) : FName :=
  match pyRfindDot n with
  | some i => if 0 < i ∧ i < n.length - 1 then n.take i else n
  | none => n

/-- Python substring containment `needle in hay`. -/
def containsSub (needle hay : List Char) : Bool :=
  hay.tails.any (fun t => needle.isPrefixOf t)

/-- The marker the driver filters on: `'-thumb' in f.stem` (line 290). -/
def thumbMark : List Char := "-thumb".toList

/-- The extension set of `main` (line 283). -/
def imageExts : List FName :=
  [".jpg".toList, ".jpeg".toList, ".png".toList,
   ".JPG".toList, ".JPEG".toList, ".PNG".toList]

/-- `root_path.rglob(f'*{ext}')` restricted to a fixed listing of file
names: fnmatch `*` matches any (possibly empty) string, so the pattern
keeps exactly the names ending in `ext`. -/
def globMatches (ext : FName) (names : List FName) : List FName :=
  names.filter (fun n => ext.isSuffixOf n)

/-- The accumulation loop `for ext in image_extensions: image_files.extend(...)`. -/
def rglobAll : List FName → List FName → List FName
  | [], _ => []
  | e :: es, names => globMatches e names ++ rglobAll es names

/-- File discovery of `main` (lines 285-290): gather the glob matches for
every extension, then drop names whose stem contains `-thumb`. -/
def findImageFiles (names : List FName) : List FName :=
  (rglobAll imageExts names).filter (fun n => !containsSub thumbMark (pyStem n))

/-- Modelled from the spec: selection criterion as the spec words it, "files
whose extension is one of `.jpg/.jpeg/.png/.JPG/.JPEG/.PNG` and whose stem
does not contain `-thumb`", with extension and stem read per pathlib. -/
def extSelectedSpec (n : FName) : Bool :=
  imageExts.contains (pySuffix n) && !containsSub thumbMark (pyStem n)

/-! ### Binary64 model for the aspect-ratio computation

`process_image` computes `aspect_ratio = image.height / image.width` and
`thumbnail_height = int(thumbnail_width * aspect_ratio)` (lines 220-221) in
Python floats, i.e. IEEE-754 binary64.  Rationals are represented as raw
numerator/denominator pairs of naturals (`PQ`, no normalisation, so every
operation is explicit natural arithmetic); `r64` rounds a positive rational
in the binary64 normal range to the nearest value with a 53-bit
significand, ties to even, which is exactly what each binary64 division
and multiplication produces; `int` on a nonnegative value truncates,
i.e. takes the floor. -/

/-- A nonnegative rational as a raw numerator/denominator pair
(denominator positive in every use below). -/
structure PQ where
  num : Nat
  den : Nat
deriving DecidableEq

/-- Exact product of two `PQ` rationals. -/
def pqMul (a b : PQ) : PQ := ⟨a.num * b.num, a.den * b.den⟩

/-- `x * 2^k` for an integer exponent `k`. -/
def pqScale (q : PQ) (k : ℤ) : PQ :=
  if 0 ≤ k then ⟨q.num * 2 ^ k.toNat, q.den⟩ else ⟨q.num, q.den * 2 ^ (-k).toNat⟩

/-- Fuel-driven base-2 logarithm (`natLog2 n = k` iff `2^k ≤ n < 2^(k+1)` for `n ≥ 1`). -/
def natLog2Aux : Nat → Nat → Nat
  | 0, _ => 0
  | fuel + 1, n => if n ≤ 1 then 0 else natLog2Aux fuel (n / 2) + 1

def natLog2 (n : Nat) : Nat := natLog2Aux n n

/-- Least `k` at least the start value with `den ≤ num * 2^k`, fuel-driven
(used for `0 < q < 1`, where fuel `den + 1` always suffices). -/
def expNegAux : Nat → PQ → Nat → Nat
  | 0, _, k => k
  | fuel + 1, q, k => if q.den ≤ q.num * 2 ^ k then k else expNegAux fuel q (k + 1)

/-- The binade exponent of a positive rational: the `e` with `2^e ≤ q < 2^(e+1)`. -/
def pqExp (q : PQ) : ℤ :=
  if q.den ≤ q.num then (natLog2 (q.num / q.den) : ℤ)
  else -(expNegAux (q.den + 1) q 1 : ℤ)

/-- Round `n / d` to an integer, ties to even (the IEEE-754 default
rounding, and also Python `round` on nonnegative values). -/
def rheDiv (n d : Nat) : Nat :=
  let f := n / d
  let r := n % d
  if 2 * r < d then f
  else if d < 2 * r then f + 1
  else if f % 2 = 0 then f else f + 1

/-- Round a positive rational in the binary64 normal range to the nearest
binary64 value: scale into the binade of 52-bit exponents, round the
significand half-to-even, scale back.  Zero maps to zero. -/
def r64 (q : PQ) : PQ :=
  if q.num = 0 then ⟨0, 1⟩
  else
    let e := pqExp q
    let s := pqScale q (52 - e)
    pqScale ⟨rheDiv s.num s.den, 1⟩ (e - 52)

/-- Python `int()` on a nonnegative rational: truncation, i.e. floor. -/
def pyIntPos (q : PQ) : Nat := q.num / q.den

/-- Lines 220-221 of the source: `int(thumbnail_width * (height / width))`
where the division and the multiplication are each rounded to binary64. -/
def thumbHeightPy (w h t : Nat) : Nat :=
  pyIntPos (r64 (pqMul ⟨t, 1⟩ (r64 ⟨h, w⟩)))

/-! ### Pixel-level image model

An image is its size, its PIL mode and a pixel function (pixels outside
`[0,width) x [0,height)` are irrelevant).  Only the modes the per-file
pipeline distinguishes for RGB/RGBA sources are modelled; palette and
luminance-alpha sources take the same white-background branch in the code
and are outside the modelled mode set.  A pixel always carries four
channels; the alpha channel of an RGB-mode image is meaningless. -/

structure Pixel where
  r : Nat
  g : Nat
  b : Nat
  a : Nat
deriving DecidableEq

inductive PMode
  | RGB
  | RGBA
deriving DecidableEq

structure Img where
  width : Nat
  height : Nat
  mode : PMode
  pix : Nat → Nat → Pixel

/-- Pillow's MULDIV255 macro: `(a*b+128 >> 8) + (a*b+128) >> 8`,
a rounding approximation of `a * b / 255`. -/
def muldiv255 (x y : Nat) : Nat :=
  ((x * y + 128) / 256 + (x * y + 128)) / 256

/-- Pillow's BLEND macro for pasting with mask value `m`:
`MULDIV255(old, 255-m) + MULDIV255(new, m)`. -/
def blendChan (m old new : Nat) : Nat :=
  muldiv255 old (255 - m) + muldiv255 new m

def blendPixel (m : Nat) (old new : Pixel) : Pixel :=
  ⟨blendChan m old.r new.r, blendChan m old.g new.g,
   blendChan m old.b new.b, blendChan m old.a new.a⟩

/-- PIL `base.paste(src, off, mask)` where `mask` is an RGBA image: each
channel of each pixel covered by the source region is blended using the
alpha channel of the mask; the source region is clipped to the base
(offsets may be negative). -/
def paste (base src : Img) (off : ℤ × ℤ) (mask : Img) : Img :=
  { base with pix := fun px py =>
      let sx : ℤ := (px : ℤ) - off.1
      let sy : ℤ := (py : ℤ) - off.2
      if 0 ≤ sx ∧ sx < (src.width : ℤ) ∧ 0 ≤ sy ∧ sy < (src.height : ℤ) then
        (blendPixel (mask.pix sx.toNat sy.toNat).a (base.pix px py)
          (src.pix sx.toNat sy.toNat))
      else base.pix px py }

/-- PIL `convert('RGBA')` from RGB: same pixels with full alpha. -/
def convertRGBA (img : Img) : Img :=
  { img with
    mode := .RGBA
    pix := fun x y => { img.pix x y with a := 255 } }

/-- Pasting an alpha-carrying image onto a fresh white RGB background using
its own alpha band as the mask.  This is both the normalisation step of
`process_image` (lines 191-196) and its JPEG flattening steps
(lines 209-212 and 237-240). -/
def flattenAlphaWhite (img : Img) : Img :=
  let whiteBg : Img :=
    { width := img.width, height := img.height, mode := .RGB,
      pix := fun _ _ => ⟨255, 255, 255, 255⟩ }
  paste whiteBg img (0, 0) img

/-- Lines 189-198 of the source, for RGB and RGBA inputs: alpha-carrying
images are flattened onto white, RGB images pass through. -/
def normalizeRGB (img : Img) : Img :=
  match img.mode with
  | .RGBA => flattenAlphaWhite img
  | .RGB => img

/-- The position-to-coordinates table of `apply_watermark` (lines 150-167).
Coordinates are integers: Python ints may go negative here, and `//` is
floor division. -/
def wmCoords (imgW imgH wmW wmH : Nat) (position : String) (padding : ℤ) : ℤ × ℤ :=
  if position = "top_right" then ((imgW : ℤ) - wmW - padding, padding)
  else if position = "top_left" then (padding, padding)
  else if position = "bottom_right" then
    ((imgW : ℤ) - wmW - padding, (imgH : ℤ) - wmH - padding)
  else if position = "bottom_left" then (padding, (imgH : ℤ) - wmH - padding)
  else (Int.fdiv ((imgW : ℤ) - wmW) 2, Int.fdiv ((imgH : ℤ) - wmH) 2)

/-- `apply_watermark` (lines 129-172) transcribed operation by operation.
`convert` returns a fresh object (rebinding the local only), `copy`
returns a fresh object, and `paste` mutates only its receiver (the copy),
so the pair is (returned image, state of the caller's image object after
the call).  The watermark itself is passed as the paste mask, so its alpha
channel masks the paste. -/
def apply_watermark_call (image watermark : Img) (position : String)
    (padding : ℤ) : Img × Img :=
  let base := if image.mode = .RGBA then image else convertRGBA image
  let watermarked := base
  let xy := wmCoords watermarked.width watermarked.height
    watermark.width watermark.height position padding
  let watermarked := paste watermarked watermark xy watermark
  (watermarked, image)

def apply_watermark (image watermark : Img) (position : String)
    (padding : ℤ) : Img :=
  (apply_watermark_call image watermark position padding).1

/-- The final opacity stage of `create_watermark` (lines 120-124):
`alpha = watermark.split()[3]; alpha = alpha.point(lambda p: int(p * opacity));
watermark.putalpha(alpha)`.  The composite built before this point (logo
loading and resizing, font probing, text drawing; lines 29-118) depends on
the execution environment (logo file, installed fonts) and is taken as the
`composite` argument.  `opacity` is the rational value of the float
argument; the product `p * opacity` is modelled exactly (for `p ≤ 255` and
`0 ≤ opacity ≤ 1` the binary64 rounding of the product is below the next
integer boundary, so the truncated value is unchanged). -/
def create_watermark (composite : Img) (opacity : PQ) : Img :=
  { composite with pix := fun x y =>
      { composite.pix x y with
        a := (composite.pix x y).a * opacity.num / opacity.den } }

/-- Largest alpha value over the pixel grid of an image. -/
def maxAlpha (img : Img) : Nat :=
  ((List.range img.height).map (fun y =>
    ((List.range img.width).map (fun x => (img.pix x y).a)).foldr max 0)).foldr
    max 0

/-- A stand-in resampling kernel (nearest pixel) used to instantiate the
resampling parameter in witnesses; it produces an image of the requested
size, which is all the theorems rely on. -/
def resizeNearest (img : Img) (w h : Nat) : Img :=
  { width := w, height := h, mode := img.mode,
    pix := fun x y => img.pix (x * img.width / w) (y * img.height / h) }

/-- Data flow of `process_image` (lines 184-243).  The two
environment-dependent library computations are parameters: `createWm w`
stands for `create_watermark(logo_path, w, opacity=0.55)` and `resample`
for LANCZOS resizing (the theorems rely only on which image and which
target size are passed to it).  `isJpeg` is the test
`suffix.lower() in ['.jpg', '.jpeg']`.  Returns the image saved over the
original (line 215) and the image saved as the thumbnail (line 243). -/
def processPixels (createWm : Nat → Img) (resample : Img → Nat → Nat → Img)
    (img : Img) (isJpeg : Bool) (thumbW : Nat) : Img × Img :=
  let image := normalizeRGB img
  let watermark := createWm image.width
  let watermarked := apply_watermark image watermark "top_right" 20
  let watermarked :=
    if isJpeg ∧ watermarked.mode = .RGBA then flattenAlphaWhite watermarked
    else watermarked
  let thumbH := thumbHeightPy image.width image.height thumbW
  let thumbnail := resample image thumbW thumbH
  let thumbWatermark := createWm thumbnail.width
  let watermarkedThumb := apply_watermark thumbnail thumbWatermark "top_right" 10
  let watermarkedThumb :=
    if isJpeg ∧ watermarkedThumb.mode = .RGBA then
      flattenAlphaWhite watermarkedThumb
    else watermarkedThumb
  (watermarked, watermarkedThumb)

/-- The image the thumbnail is resized from, per lines 220-224: the
normalized pre-watermark image at the thumbnail dimensions. -/
def thumbSourceImg (resample : Img → Nat → Nat → Img) (img : Img)
    (thumbW : Nat) : Img :=
  let image := normalizeRGB img
  resample image thumbW (thumbHeightPy image.width image.height thumbW)

/-- The thumbnail as saved, built from `thumbSourceImg` and a watermark
created for the thumbnail's own width (lines 227-243). -/
def savedThumbOf (createWm : Nat → Img) (resample : Img → Nat → Nat → Img)
    (img : Img) (isJpeg : Bool) (thumbW : Nat) : Img :=
  let thumbnail := thumbSourceImg resample img thumbW
  let wt := apply_watermark thumbnail (createWm thumbnail.width) "top_right" 10
  if isJpeg ∧ wt.mode = .RGBA then flattenAlphaWhite wt else wt

/-! ### Control-flow trace model

`process_image` is one `try` block of eleven successive steps; `main` is a
validation, a discovery, and a sequential loop.  The trace model records
which files are written and what is printed (message text up to the
elision of interpolated exception texts and counters), driven by a fault
oracle that says which step of which file raises, and whether it raises an
ordinary `Exception` — caught by the `except Exception` handler at line
246, which logs and returns — or `SystemExit` — raised by the `sys.exit(1)`
at line 42 inside `create_watermark` when loading or resizing the logo
fails, and not caught, because `SystemExit` does not derive from
`Exception`. -/

/-- The successive steps of the `try` block of `process_image`, in source
order (lines 186-244). -/
inductive PStep
  | load
  | createWmFull
  | applyWmFull
  | flattenFull
  | saveOriginal
  | thumbSize
  | thumbResize
  | createWmThumb
  | applyWmThumb
  | flattenThumb
  | saveThumb
deriving DecidableEq

def stepSeq : List PStep :=
  [.load, .createWmFull, .applyWmFull, .flattenFull, .saveOriginal,
   .thumbSize, .thumbResize, .createWmThumb, .applyWmThumb, .flattenThumb,
   .saveThumb]

/-- The steps of `process_image` that belong to thumbnail generation: all
steps strictly after the save of the watermarked original. -/
def thumbSteps : List PStep :=
  [.thumbSize, .thumbResize, .createWmThumb, .applyWmThumb, .flattenThumb,
   .saveThumb]

inductive FaultKind
  | exn
  | sysExit
deriving DecidableEq

structure Fault where
  step : PStep
  kind : FaultKind
deriving DecidableEq

/-- Observable actions: console prints and file writes. -/
inductive Event
  | printMsg (msg : List Char)
  | saveFile (name : FName)
deriving DecidableEq

/-- Thumbnail path of line 233: `f"{stem}-thumb{suffix}"` beside the original. -/
def thumbNameOf (p : FName) : FName := pyStem p ++ thumbMark ++ pySuffix p

def watermarkedMsg (p : FName) : List Char := "Watermarked: ".toList ++ p

def thumbSavedMsg (p : FName) : List Char :=
  "Thumbnail: ".toList ++ thumbNameOf p

/-- Line 247: `f"Error processing {image_path}: {e}"` (exception text elided). -/
def fileErrMsg (p : FName) : List Char := "Error processing ".toList ++ p

/-- Line 41: `f"Error loading logo: {e}"` (exception text elided). -/
def logoLoadErrMsg : List Char := "Error loading logo: ".toList

/-- Line 278: `f"Error: Logo file not found: {args.logo}"`. -/
def logoErrMsg (logo : FName) : List Char :=
  "Error: Logo file not found: ".toList ++ logo

/-- Line 293: printed before `sys.exit(0)` when discovery is empty. -/
def noImagesMsg : List Char := "No image files found to process.".toList

/-- Line 302: `f"[{i}/{n}] Processing: {image_path}"` (counters elided). -/
def headerMsg (p : FName) : List Char := "Processing: ".toList ++ p

/-- Line 305: final summary print (counter elided). -/
def doneMsg : List Char := "Completed processing.".toList

/-- Line 296: count summary before the loop (counter elided). -/
def foundMsg : List Char := "Found image(s) to process.".toList

/-- What a step writes and prints when it completes without raising. -/
def stepEvents (p : FName) : PStep → List Event
  | .saveOriginal => [.saveFile p, .printMsg (watermarkedMsg p)]
  | .saveThumb => [.saveFile (thumbNameOf p), .printMsg (thumbSavedMsg p)]
  | _ => []

/-- Whether the `try` block finished, returned after a caught exception, or
was exited by an uncaught `SystemExit` carrying an exit code. -/
inductive POutcome
  | completed
  | exited (code : Nat)
deriving DecidableEq

/-- Run the steps of the `try` block under a fault oracle.  A fault of kind
`exn` is caught by the handler at line 246: the error is printed and the
function returns.  A fault of kind `sysExit` models the `sys.exit(1)` of
line 42: the logo-loading error is printed and `SystemExit(1)` propagates
out of `process_image` uncaught. -/
def runSteps (p : FName) (fault : Option Fault) : List PStep → List Event × POutcome
  | [] => ([], .completed)
  | s :: rest =>
    match fault with
    | some f =>
      if f.step = s then
        match f.kind with
        | .exn => ([.printMsg (fileErrMsg p)], .completed)
        | .sysExit => ([.printMsg logoLoadErrMsg], .exited 1)
      else
        let r := runSteps p fault rest
        (stepEvents p s ++ r.1, r.2)
    | none =>
      let r := runSteps p fault rest
      (stepEvents p s ++ r.1, r.2)

/-- `process_image` (lines 175-247) as a trace. -/
def processImageRun (p : FName) (fault : Option Fault) : List Event × POutcome :=
  runSteps p fault stepSeq

/-- The processing loop of `main` (lines 301-305) over the discovered
files, followed by the completion print; an uncaught `SystemExit` aborts
the loop and becomes the process exit code. -/
def processAll (faults : FName → Option Fault) : List FName → List Event × Nat
  | [] => ([.printMsg doneMsg], 0)
  | f :: fs =>
    let r := processImageRun f (faults f)
    match r.2 with
    | .completed =>
      let rest := processAll faults fs
      (.printMsg (headerMsg f) :: r.1 ++ rest.1, rest.2)
    | .exited c => (.printMsg (headerMsg f) :: r.1, c)

/-- `main` (lines 250-305) over an abstract environment: whether the logo
path exists, the listing of file names under the root, and a per-file
fault oracle.  Returns the events and the process exit code (`sys.exit(1)`
at line 279, `sys.exit(0)` at line 294, implicit 0 on falling off the end,
or a propagated `SystemExit` code). -/
def mainRun (logoExists : Bool) (logo : FName) (names : List FName)
    (faults : FName → Option Fault) : List Event × Nat :=
  if !logoExists then ([.printMsg (logoErrMsg logo)], 1)
  else
    let files := findImageFiles names
    if files.isEmpty then ([.printMsg noImagesMsg], 0)
    else
      let r := processAll faults files
      (.printMsg foundMsg :: r.1, r.2)

/-! ### Concrete fixtures used by witnesses and counterexamples -/

/-- A tiny RGBA bitmap standing in for a built watermark composite. -/
def wmStub (w : Nat) : Img :=
  { width := w / 5, height := w / 10, mode := .RGBA,
    pix := fun _ _ => ⟨0, 0, 0, 100⟩ }

/-- A watermark builder that agrees with `wmStub` at width 400 and differs
elsewhere. -/
def wmStubAlt (w : Nat) : Img :=
  if w = 400 then wmStub 400
  else { width := w, height := w, mode := .RGBA, pix := fun _ _ => ⟨9, 9, 9, 9⟩ }

/-- A 100 x 29 opaque RGB test image. -/
def img100x29 : Img :=
  { width := 100, height := 29, mode := .RGB,
    pix := fun _ _ => ⟨200, 200, 200, 255⟩ }

/-- An 800 x 600 opaque RGB test image. -/
def img800x600 : Img :=
  { width := 800, height := 600, mode := .RGB,
    pix := fun _ _ => ⟨10, 40, 70, 255⟩ }

/-- A 1 x 1 RGBA composite used by the opacity witness. -/
def onePixComposite : Img :=
  { width := 1, height := 1, mode := .RGBA, pix := fun _ _ => ⟨10, 20, 30, 255⟩ }

/-- A fault oracle raising an ordinary exception at the thumbnail resize of
every file. -/
def exnAtResize : FName → Option Fault := fun _ => some ⟨.thumbResize, .exn⟩

/-- A fault oracle raising `SystemExit` inside the full-size
`create_watermark` of every file. -/
def sysExitAtCreate : FName → Option Fault := fun _ => some ⟨.createWmFull, .sysExit⟩

/-- A fault-free oracle. -/
def noFaults : FName → Option Fault := fun _ => none

theorem mem_rglobAll (es names : List FName) (n : FName) :
    n ∈ rglobAll es names ↔ n ∈ names ∧ ∃ e ∈ es, e.isSuffixOf n = true := by
  induction es with
  | nil => simp [rglobAll]
  | cons e es ih =>
    simp only [rglobAll, globMatches, List.mem_append, List.mem_filter, ih,
      List.mem_cons]
    constructor
    · rintro (⟨hn, hs⟩ | ⟨hn, e', he', hs⟩)
      · exact ⟨hn, e, Or.inl rfl, hs⟩
      · exact ⟨hn, e', Or.inr he', hs⟩
    · rintro ⟨hn, e', (rfl | he'), hs⟩
      · exact Or.inl ⟨hn, hs⟩
      · exact Or.inr ⟨hn, e', he', hs⟩

theorem mem_findImageFiles (names : List FName) (n : FName) :
    n ∈ findImageFiles names ↔
      n ∈ names ∧ (∃ e ∈ imageExts, e.isSuffixOf n = true) ∧
        containsSub thumbMark (pyStem n) = false := by
  simp only [findImageFiles, List.mem_filter, mem_rglobAll, Bool.not_eq_true',
    and_assoc]

/-! ### C1: file discovery -/

/-- C1, as stated, is false on the code: `rglob` matches any name ending in
the extension text (fnmatch `*` matches the empty string, and pathlib
globbing does not skip dotfiles), so a file named exactly `.png` is
selected even though its pathlib extension is empty (the lone dot at index
0 is not a suffix separator) and hence not in the extension set. -/
theorem C1_counterexample :
    findImageFiles [".png".toList] = [".png".toList] ∧
      extSelectedSpec ".png".toList = false ∧
      pySuffix ".png".toList = [] := by
  refine ⟨by decide, by decide, by decide⟩

/-- C1 (amended): for every root listing, the batch driver selects exactly
the files whose NAME ENDS WITH one of `.jpg/.jpeg/.png/.JPG/.JPEG/.PNG`
and whose stem does not contain the substring `-thumb`; in particular a
directory containing `photo.png` and `photo-thumb.png` yields the list
`{photo.png}` only. -/
theorem C1_fileDiscovery :
    (∀ (names : List FName) (n : FName),
      n ∈ findImageFiles names ↔
        n ∈ names ∧ (∃ e ∈ imageExts, e.isSuffixOf n = true) ∧
          containsSub thumbMark (pyStem n) = false) ∧
    findImageFiles ["photo.png".toList, "photo-thumb.png".toList] =
      ["photo.png".toList] := by
  refine ⟨mem_findImageFiles, by decide⟩

/-! ### C2: exit codes -/

theorem containsSub_append_self (pre needle : List Char) :
    containsSub needle (pre ++ needle) = true := by
  simp only [containsSub, List.any_eq_true, List.mem_tails,
    List.isPrefixOf_iff_prefix]
  exact ⟨needle, List.suffix_append pre needle, List.prefix_refl needle⟩

theorem runSteps_exn_completed (p : FName) (fault : Option Fault)
    (h : ∀ fl, fault = some fl → fl.kind = FaultKind.exn) (l : List PStep) :
    (runSteps p fault l).2 = POutcome.completed := by
  induction l with
  | nil => rfl
  | cons s rest ih =>
    match hf : fault with
    | none => simpa [runSteps] using ih
    | some f =>
      by_cases hst : f.step = s
      · have hk : f.kind = FaultKind.exn := h f rfl
        simp [runSteps, hst, hk]
      · simpa [runSteps, hst] using ih

theorem processAll_exn_zero (faults : FName → Option Fault)
    (h : ∀ f fl, faults f = some fl → fl.kind = FaultKind.exn)
    (fs : List FName) : (processAll faults fs).2 = 0 := by
  induction fs with
  | nil => rfl
  | cons f fs ih =>
    have hc : (processImageRun f (faults f)).2 = POutcome.completed :=
      runSteps_exn_completed f (faults f) (fun fl hfl => h f fl hfl) stepSeq
    simp [processAll, hc, ih]

/-- C2: the program exits 1 when the logo path does not exist, printing an
error that mentions the path and writing no files; it exits 0 when no
image file is discovered; and when every per-file fault is an ordinary
exception (so that the loop runs to the end), the exit code is 0 even if
files failed. -/
theorem C2_exitCodes :
    (∀ (logo : FName) (names : List FName) (faults : FName → Option Fault),
      mainRun false logo names faults =
        ([.printMsg (logoErrMsg logo)], 1) ∧
      containsSub logo (logoErrMsg logo) = true ∧
      ∀ n, Event.saveFile n ∉ (mainRun false logo names faults).1) ∧
    (∀ (logo : FName) (names : List FName) (faults : FName → Option Fault),
      findImageFiles names = [] →
      mainRun true logo names faults = ([.printMsg noImagesMsg], 0)) ∧
    (∀ (logo : FName) (names : List FName) (faults : FName → Option Fault),
      (∀ f fl, faults f = some fl → fl.kind = FaultKind.exn) →
      (mainRun true logo names faults).2 = 0) := by
  refine ⟨fun logo names faults => ⟨rfl, containsSub_append_self _ _, ?_⟩,
    fun logo names faults h => ?_, fun logo names faults h => ?_⟩
  · intro n
    simp [mainRun]
  · simp [mainRun, h]
  · by_cases he : (findImageFiles names).isEmpty
    · simp [mainRun, he]
    · simp [mainRun, he, processAll_exn_zero faults h]

theorem C2_exitCodes_witness :
    ((mainRun false "logo.png".toList ["photo.png".toList] exnAtResize).2 = 1) ∧
    (findImageFiles ["readme.txt".toList] = [] ∧
      mainRun true "logo.png".toList ["readme.txt".toList] exnAtResize =
        ([.printMsg noImagesMsg], 0)) ∧
    ((∀ f fl, exnAtResize f = some fl → fl.kind = FaultKind.exn) ∧
      (mainRun true "logo.png".toList ["photo.png".toList] exnAtResize).2 = 0) := by
  have hexn : ∀ f fl, exnAtResize f = some fl → fl.kind = FaultKind.exn := by
    intro f fl h
    cases h
    rfl
  refine ⟨?_, ⟨by decide, C2_exitCodes.2.1 _ _ _ (by decide)⟩,
    ⟨hexn, C2_exitCodes.2.2 _ _ _ hexn⟩⟩
  rw [(C2_exitCodes.1 "logo.png".toList ["photo.png".toList] exnAtResize).1]

/-! ### C7: save ordering, no rollback -/

theorem pyStem_len_add_pySuffix_len (p : FName) :
    (pyStem p).length + (pySuffix p).length = p.length := by
  unfold pyStem pySuffix
  cases h : pyRfindDot p with
  | none => simp
  | some i =>
    by_cases hc : 0 < i ∧ i < p.length - 1
    · dsimp only
      rw [if_pos hc, if_pos hc]
      simp only [List.length_take, List.length_drop]
      omega
    · simp [hc]

theorem thumbNameOf_ne (p : FName) : thumbNameOf p ≠ p := by
  intro h
  have hlen := congrArg List.length h
  have hmark : thumbMark.length = 6 := rfl
  simp only [thumbNameOf, List.length_append, hmark] at hlen
  have hsum := pyStem_len_add_pySuffix_len p
  omega

/-- C7: within `process_image`, the original is saved (and so overwritten)
strictly before any thumbnail step; an ordinary exception at any thumbnail
step is caught, the error message is the last thing printed, the original
remains written, no thumbnail is written, nothing undoes the overwrite, and
the driver loop carries on with the remaining files. -/
theorem C7_saveOrdering (p : FName) (s : PStep) (hs : s ∈ thumbSteps) :
    stepSeq.indexOf PStep.saveOriginal < stepSeq.indexOf s ∧
    ((processImageRun p (some ⟨s, .exn⟩)).2 = POutcome.completed ∧
      (processImageRun p (some ⟨s, .exn⟩)).1 =
        [.saveFile p, .printMsg (watermarkedMsg p),
         .printMsg (fileErrMsg p)] ∧
      Event.saveFile p ∈ (processImageRun p (some ⟨s, .exn⟩)).1 ∧
      Event.saveFile (thumbNameOf p) ∉ (processImageRun p (some ⟨s, .exn⟩)).1) ∧
    (∀ (faults : FName → Option Fault) (fs : List FName),
      faults p = some ⟨s, .exn⟩ →
      processAll faults (p :: fs) =
        (.printMsg (headerMsg p) :: (processImageRun p (some ⟨s, .exn⟩)).1
            ++ (processAll faults fs).1,
          (processAll faults fs).2)) := by
  have hne := thumbNameOf_ne p
  fin_cases hs <;>
    refine ⟨by decide,
      ⟨rfl, rfl,
        by simp [processImageRun, runSteps, stepSeq, stepEvents],
        by simp [processImageRun, runSteps, stepSeq, stepEvents, hne]⟩,
      fun faults fs hf => by simp [processAll, hf, processImageRun, runSteps,
        stepSeq, stepEvents]⟩

theorem C7_saveOrdering_witness :
    (PStep.thumbResize ∈ thumbSteps) ∧
    (processImageRun "photo.png".toList
        (some ⟨PStep.thumbResize, .exn⟩)).2 = POutcome.completed ∧
    Event.saveFile "photo.png".toList ∈
      (processImageRun "photo.png".toList (some ⟨PStep.thumbResize, .exn⟩)).1 ∧
    processAll exnAtResize ["photo.png".toList] =
      (.printMsg (headerMsg "photo.png".toList) ::
          (processImageRun "photo.png".toList
            (some ⟨PStep.thumbResize, .exn⟩)).1 ++ (processAll exnAtResize []).1,
        (processAll exnAtResize []).2) := by
  refine ⟨by decide,
    (C7_saveOrdering "photo.png".toList PStep.thumbResize (by decide)).2.1.1,
    (C7_saveOrdering "photo.png".toList PStep.thumbResize (by decide)).2.1.2.2.1,
    (C7_saveOrdering "photo.png".toList PStep.thumbResize (by decide)).2.2
      exnAtResize [] rfl⟩

/-! ### C8: SystemExit escapes the per-file handler -/

/-- C8: a `sys.exit(1)` raised inside `create_watermark` (either the
full-size or the thumbnail build) is a `SystemExit`, which the per-file
`except Exception` does not catch: `process_image` is exited rather than
completing, the loop is aborted with the remaining files unprocessed, and
the process exit code is 1. -/
theorem C8_sysExitEscapes (p : FName) (s : PStep)
    (hs : s = PStep.createWmFull ∨ s = PStep.createWmThumb) :
    (processImageRun p (some ⟨s, .sysExit⟩)).2 = POutcome.exited 1 ∧
    (∀ (faults : FName → Option Fault) (fs : List FName),
      faults p = some ⟨s, .sysExit⟩ →
      processAll faults (p :: fs) =
        (.printMsg (headerMsg p) :: (processImageRun p (some ⟨s, .sysExit⟩)).1,
          1)) ∧
    (∀ (logo : FName) (names : List FName) (faults : FName → Option Fault)
        (fs : List FName),
      findImageFiles names = p :: fs →
      faults p = some ⟨s, .sysExit⟩ →
      (mainRun true logo names faults).2 = 1) := by
  rcases hs with rfl | rfl <;>
    refine ⟨rfl,
      fun faults fs hf => by
        simp [processAll, hf, processImageRun, runSteps, stepSeq, stepEvents],
      fun logo names faults fs hfind hf => by
        simp [mainRun, hfind, processAll, hf, processImageRun, runSteps,
          stepSeq, stepEvents]⟩

theorem C8_sysExitEscapes_witness :
    (PStep.createWmFull = PStep.createWmFull ∨
        PStep.createWmFull = PStep.createWmThumb) ∧
    (processImageRun "photo.png".toList
        (some ⟨PStep.createWmFull, .sysExit⟩)).2 = POutcome.exited 1 ∧
    (findImageFiles ["photo.png".toList] =
        "photo.png".toList :: [] ∧
      (mainRun true "logo.png".toList ["photo.png".toList]
        sysExitAtCreate).2 = 1) := by
  refine ⟨Or.inl rfl,
    (C8_sysExitEscapes "photo.png".toList PStep.createWmFull (Or.inl rfl)).1,
    by decide,
    (C8_sysExitEscapes "photo.png".toList PStep.createWmFull (Or.inl rfl)).2.2
      "logo.png".toList ["photo.png".toList] sysExitAtCreate [] (by decide) rfl⟩

/-! ### Shared geometry and dimension lemmas -/

theorem wmCoords_center (iw ih ww wh : Nat) (pad : ℤ) :
    wmCoords iw ih ww wh "center" pad =
      (Int.fdiv ((iw : ℤ) - ww) 2, Int.fdiv ((ih : ℤ) - wh) 2) := rfl

theorem two_mul_fdiv_two (k : ℤ) :
    k - 1 ≤ 2 * Int.fdiv k 2 ∧ 2 * Int.fdiv k 2 ≤ k := by
  cases k with
  | ofNat m =>
    cases m with
    | zero => decide
    | succ m =>
      have h : Int.fdiv (Int.ofNat (m + 1)) 2 = Int.ofNat ((m + 1) / 2) := rfl
      rw [h]
      simp only [Int.ofNat_eq_natCast]
      omega
  | negSucc m =>
    have h : Int.fdiv (Int.negSucc m) 2 = Int.negSucc (m / 2) := rfl
    rw [h]
    simp only [Int.negSucc_eq]
    omega

theorem apply_watermark_width (i w : Img) (pos : String) (pad : ℤ) :
    (apply_watermark i w pos pad).width = i.width := by
  cases h : i.mode <;>
    simp [apply_watermark, apply_watermark_call, paste, convertRGBA, h]

theorem apply_watermark_height (i w : Img) (pos : String) (pad : ℤ) :
    (apply_watermark i w pos pad).height = i.height := by
  cases h : i.mode <;>
    simp [apply_watermark, apply_watermark_call, paste, convertRGBA, h]

theorem flattenAlphaWhite_width (i : Img) :
    (flattenAlphaWhite i).width = i.width := rfl

theorem flattenAlphaWhite_height (i : Img) :
    (flattenAlphaWhite i).height = i.height := rfl

theorem normalizeRGB_width (i : Img) : (normalizeRGB i).width = i.width := by
  cases h : i.mode <;> simp [normalizeRGB, flattenAlphaWhite, paste, h]

theorem normalizeRGB_height (i : Img) : (normalizeRGB i).height = i.height := by
  cases h : i.mode <;> simp [normalizeRGB, flattenAlphaWhite, paste, h]

/-! ### C3: thumbnail dimensions -/

/-- C3, as stated, is false on the code: the height is computed as
`int(thumbnail_width * (height / width))` in binary64 floating point, and
for a 100 x 29 source at thumbnail width 400 the rounded quotient `29/100`
falls below the exact value, giving height 115 where
`floor(400 * 29 / 100) = 116`. -/
theorem C3_counterexample :
    ((processPixels wmStub resizeNearest img100x29 false 400).2).height = 115 ∧
    400 * 29 / 100 = 116 := by
  exact ⟨by decide, by decide⟩

/-- C3 (amended): the saved thumbnail has width exactly the configured
thumbnail width, and height `int(T * (H/W))` evaluated in binary64
arithmetic (`thumbHeightPy`), which can differ from `floor(T*H/W)` by one;
for `--thumbnail-width 400` and a 1600 x 1000 source the two agree and the
thumbnail is exactly 400 x 250. -/
theorem C3_thumbnailDims (createWm : Nat → Img)
    (resample : Img → Nat → Nat → Img)
    (hres : ∀ i w h, (resample i w h).width = w ∧ (resample i w h).height = h)
    (img : Img) (isJpeg : Bool) (thumbW : Nat) :
    ((processPixels createWm resample img isJpeg thumbW).2).width = thumbW ∧
    ((processPixels createWm resample img isJpeg thumbW).2).height =
      thumbHeightPy img.width img.height thumbW ∧
    thumbHeightPy 1600 1000 400 = 250 ∧ 400 * 1000 / 1600 = 250 := by
  refine ⟨?_, ?_, by decide, by decide⟩
  · simp only [processPixels]
    split <;>
      simp [flattenAlphaWhite_width, apply_watermark_width, (hres _ _ _).1]
  · simp only [processPixels]
    split <;>
      simp [flattenAlphaWhite_height, apply_watermark_height, (hres _ _ _).2,
        normalizeRGB_width, normalizeRGB_height]

theorem C3_thumbnailDims_witness :
    (∀ i w h, (resizeNearest i w h).width = w ∧
      (resizeNearest i w h).height = h) ∧
    ((processPixels wmStub resizeNearest img800x600 false 400).2).width = 400 ∧
    ((processPixels wmStub resizeNearest img800x600 false 400).2).height =
      thumbHeightPy 800 600 400 := by
  have hres : ∀ i w h, (resizeNearest i w h).width = w ∧
      (resizeNearest i w h).height = h := fun i w h => ⟨rfl, rfl⟩
  exact ⟨hres,
    (C3_thumbnailDims wmStub resizeNearest hres img800x600 false 400).1,
    (C3_thumbnailDims wmStub resizeNearest hres img800x600 false 400).2.1⟩

/-! ### C4: opacity bound on the watermark alpha channel -/

theorem div_le_rheDiv (n d : Nat) : n / d ≤ rheDiv n d := by
  simp only [rheDiv]
  split_ifs <;> omega

theorem foldrMax_le {B : Nat} :
    ∀ l : List Nat, (∀ v ∈ l, v ≤ B) → l.foldr max 0 ≤ B
  | [], _ => Nat.zero_le B
  | a :: l, h => by
    simp only [List.foldr_cons]
    exact Nat.max_le.mpr ⟨h a (List.mem_cons_self a l),
      foldrMax_le l fun v hv => h v (List.mem_cons_of_mem a hv)⟩

/-- C4: for any composite and any opacity in [0, 1] (a rational
`num/den ≤ 1`), the alpha channel of the bitmap returned by
`create_watermark` is everywhere at most `round(255 * opacity)` (round half
to even, as Python's `round`), because the final step maps every alpha
value `p` to `int(p * opacity)`. -/
theorem C4_opacityBound (composite : Img) (opacity : PQ)
    (_hop : opacity.num ≤ opacity.den)
    (hb : ∀ x y, (composite.pix x y).a ≤ 255) :
    maxAlpha (create_watermark composite opacity) ≤
      rheDiv (255 * opacity.num) opacity.den := by
  unfold maxAlpha
  apply foldrMax_le
  intro v hv
  rw [List.mem_map] at hv
  obtain ⟨y, hy, rfl⟩ := hv
  apply foldrMax_le
  intro u hu
  rw [List.mem_map] at hu
  obtain ⟨x, hx, rfl⟩ := hu
  show (composite.pix x y).a * opacity.num / opacity.den ≤ _
  calc (composite.pix x y).a * opacity.num / opacity.den
      ≤ 255 * opacity.num / opacity.den :=
        Nat.div_le_div_right (Nat.mul_le_mul_right _ (hb x y))
    _ ≤ rheDiv (255 * opacity.num) opacity.den := div_le_rheDiv _ _

theorem C4_opacityBound_witness :
    ((11 : Nat) ≤ 20) ∧
    (∀ x y, (onePixComposite.pix x y).a ≤ 255) ∧
    maxAlpha (create_watermark onePixComposite ⟨11, 20⟩) ≤ rheDiv (255 * 11) 20 := by
  exact ⟨by decide, fun _ _ => Nat.le_refl 255,
    C4_opacityBound onePixComposite ⟨11, 20⟩ (by decide)
      (fun _ _ => Nat.le_refl 255)⟩

/-! ### C5: center anchoring -/

/-- C5: with position `center`, `apply_watermark` pastes the watermark at
`((img_width - wm_width) // 2, (img_height - wm_height) // 2)` (Python
floor division), and then twice the distance between the watermark centre
and the image centre is at most 1 on each axis — the centres coincide to
within a pixel of rounding. -/
theorem C5_centerAnchor (image watermark : Img) (padding : ℤ) :
    apply_watermark image watermark "center" padding =
      paste (if image.mode = PMode.RGBA then image else convertRGBA image)
        watermark
        (Int.fdiv ((image.width : ℤ) - watermark.width) 2,
          Int.fdiv ((image.height : ℤ) - watermark.height) 2) watermark ∧
    (∀ (iw ih ww wh : Nat) (pad : ℤ),
      wmCoords iw ih ww wh "center" pad =
        (Int.fdiv ((iw : ℤ) - ww) 2, Int.fdiv ((ih : ℤ) - wh) 2) ∧
      |2 * (wmCoords iw ih ww wh "center" pad).1 + ww - iw| ≤ 1 ∧
      |2 * (wmCoords iw ih ww wh "center" pad).2 + wh - ih| ≤ 1) := by
  constructor
  · cases h : image.mode <;>
      simp [apply_watermark, apply_watermark_call, h, wmCoords_center,
        convertRGBA]
  · intro iw ih ww wh pad
    refine ⟨wmCoords_center iw ih ww wh pad, ?_, ?_⟩
    · rw [wmCoords_center]
      have h2 := two_mul_fdiv_two ((iw : ℤ) - ww)
      rw [abs_le]
      omega
    · rw [wmCoords_center]
      have h2 := two_mul_fdiv_two ((ih : ℤ) - wh)
      rw [abs_le]
      omega

/-! ### C6: the compositor does not mutate its input -/

/-- C6: `apply_watermark` coerces the base to RGBA if needed, pastes the
watermark onto a copy at the position-table coordinates passing the
watermark itself as the paste mask (so its alpha channel masks the paste),
returns that new image, and the caller's image object is unchanged after
the call. -/
theorem C6_noMutation (image watermark : Img) (position : String)
    (padding : ℤ) :
    (apply_watermark_call image watermark position padding).2 = image ∧
    apply_watermark image watermark position padding =
      paste (if image.mode = PMode.RGBA then image else convertRGBA image)
        watermark
        (wmCoords image.width image.height watermark.width watermark.height
          position padding) watermark ∧
    (if image.mode = PMode.RGBA then image else convertRGBA image).mode =
      PMode.RGBA := by
  refine ⟨rfl, ?_, ?_⟩ <;>
    cases h : image.mode <;>
      simp [apply_watermark, apply_watermark_call, convertRGBA, h]

/-! ### C9: the thumbnail is built from the pre-watermark image -/

/-- C9: the saved thumbnail equals the normalized pre-watermark image,
resized to the thumbnail dimensions and watermarked with a watermark built
for the thumbnail's own width; in particular the output thumbnail does not
depend on what the watermark builder returns at any other width (such as
the full image width), so the full-resolution watermark never reaches the
thumbnail. -/
theorem C9_thumbnailSource (createWm : Nat → Img)
    (resample : Img → Nat → Nat → Img) (img : Img) (isJpeg : Bool)
    (thumbW : Nat) :
    (processPixels createWm resample img isJpeg thumbW).2 =
      savedThumbOf createWm resample img isJpeg thumbW ∧
    ∀ createWm2 : Nat → Img,
      createWm2 (thumbSourceImg resample img thumbW).width =
        createWm (thumbSourceImg resample img thumbW).width →
      (processPixels createWm2 resample img isJpeg thumbW).2 =
        (processPixels createWm resample img isJpeg thumbW).2 := by
  constructor
  · rfl
  · intro cw2 h
    simp only [thumbSourceImg] at h
    simp only [processPixels]
    rw [h]

theorem C9_thumbnailSource_witness :
    (wmStubAlt (thumbSourceImg resizeNearest img800x600 400).width =
      wmStub (thumbSourceImg resizeNearest img800x600 400).width) ∧
    (processPixels wmStubAlt resizeNearest img800x600 false 400).2 =
      (processPixels wmStub resizeNearest img800x600 false 400).2 := by
  exact ⟨rfl,
    (C9_thumbnailSource wmStub resizeNearest img800x600 false 400).2
      wmStubAlt rfl⟩

/-! ### C10: every unrecognized position falls back to center -/

/-- C10: for every position string other than the four recognized corner
names — including arbitrary unrecognized strings — the coordinate table
takes the final `else` branch, so the watermark is placed at the center
coordinates and `apply_watermark` behaves exactly as with `center`; no
error path exists for an invalid name. -/
theorem C10_unknownPositionCenters (position : String)
    (hp : position ∉ ["top_right", "top_left", "bottom_right", "bottom_left"]) :
    (∀ (iw ih ww wh : Nat) (pad : ℤ),
      wmCoords iw ih ww wh position pad = wmCoords iw ih ww wh "center" pad) ∧
    ∀ (image watermark : Img) (pad : ℤ),
      apply_watermark image watermark position pad =
        apply_watermark image watermark "center" pad := by
  simp only [List.mem_cons, List.not_mem_nil, or_false, not_or] at hp
  obtain ⟨h1, h2, h3, h4⟩ := hp
  have hco : ∀ (iw ih ww wh : Nat) (pad : ℤ),
      wmCoords iw ih ww wh position pad = wmCoords iw ih ww wh "center" pad := by
    intro iw ih ww wh pad
    rw [wmCoords_center]
    simp [wmCoords, h1, h2, h3, h4]
  refine ⟨hco, fun image watermark pad => ?_⟩
  simp only [apply_watermark, apply_watermark_call, hco]

theorem C10_unknownPositionCenters_witness :
    (("banana" : String) ∉
      ["top_right", "top_left", "bottom_right", "bottom_left"]) ∧
    wmCoords 100 80 30 20 "banana" 5 = wmCoords 100 80 30 20 "center" 5 := by
  exact ⟨by decide,
    (C10_unknownPositionCenters "banana" (by decide)).1 100 80 30 20 5⟩
